import Mathlib

/-!
Shallow embedding of the AI_JobScraper repository.

The modelled code is src/AI_JobScraper.py (the JSON persistence `save_data`,
the extraction strategies `anthropic_data_extractor` and `xai_data_extractor`,
and the hour-aligned scheduler sleep of the main loop) and src/test.py (the
retry loop `scrape_company` and the per-tick iteration of `main_loop`).
Machine-level I/O is represented by explicit parse states and write outcomes;
Python exceptions are represented by `Except` values.
-/

set_option autoImplicit false

namespace Scraper

/-- Python exception kinds (all subclasses of `Exception`) that the modelled
code can raise. -/
inductive PyError where
  | keyError
  | typeError
  | attributeError
  | valueError
  | indexError
  | ioError
  deriving DecidableEq

/-- JSON values, as produced by `json.load`. Objects keep their key order, as
Python dicts do. -/
inductive Json where
  | null
  | bool (b : Bool)
  | num (n : Int)
  | str (s : String)
  | arr (xs : List Json)
  | obj (kvs : List (String × Json))

/-- Subscript lookup on a Python dict modelled as an ordered association list
(first binding wins; objects produced by `json.load` have unique keys). -/
def jlookup : List (String × Json) → String → Option Json
  | [], _ => none
  | (k, v) :: rest, key => if k = key then some v else jlookup rest key

/-- Python dict item assignment: replaces the value at an existing key in
place, otherwise appends the binding at the end (insertion order preserved). -/
def jset : List (String × Json) → String → Json → List (String × Json)
  | [], key, v => [(key, v)]
  | (k, w) :: rest, key, v =>
    if k = key then (k, v) :: rest else (k, w) :: jset rest key v

/-- `save_data` from src/AI_JobScraper.py lines 30 to 59, applied to the parse
state of the target file. The argument `parsed` is `none` when the file does
not exist, `some none` when it exists but `json.load` raises
`JSONDecodeError` (which the code catches, replacing `existing_data` with a
record holding an empty data list), and `some (some j)` when the file parses
as the JSON value `j`. The body then evaluates
`existing_data["data"].append(data)`: subscripting a non-dict raises
`TypeError`, a dict without the key raises `KeyError`, and calling `.append`
on a non-list value raises `AttributeError`; none of these are caught. On
success the updated record is written back whole. -/
def save_data (parsed : Option (Option Json)) (data : Json) : Except PyError Json :=
  let existing : Json :=
    match parsed with
    | some (some j) => j
    | _ => Json.obj [("data", Json.arr [])]
  match existing with
  | Json.obj kvs =>
    match jlookup kvs "data" with
    | some (Json.arr xs) => Except.ok (Json.obj (jset kvs "data" (Json.arr (xs ++ [data]))))
    | some _ => Except.error PyError.attributeError
    | none => Except.error PyError.keyError
  | _ => Except.error PyError.typeError

/-- The snapshot list of a Dataset File value: the `"data"` field when it is
a list, nothing otherwise. -/
def dataList : Json → Option (List Json)
  | Json.obj kvs =>
    match jlookup kvs "data" with
    | some (Json.arr xs) => some xs
    | _ => none
  | _ => none

/-- Raw on-disk content of a Dataset File: either text that parses as a JSON
value, or text that does not parse at all (for example the truncated prefix
left behind by an interrupted `json.dump`; no strict prefix of a serialized
object is itself valid JSON). -/
inductive FileRaw where
  | good (j : Json)
  | garbled

/-- Outcome of the write step of `save_data` (lines 56 to 57 of
src/AI_JobScraper.py): the `open(filename, "w")` call truncates the file and
then `json.dump` writes the serialized record into it. `failOpen` is an
`OSError` raised by `open` itself (for example a permission error), before
the file is touched; `failPartial` is an `OSError` raised part-way through
`json.dump` (for example disk full), after truncation, leaving unparseable
partial content; `success` writes the record in full. -/
inductive WriteOutcome where
  | success
  | failOpen
  | failPartial

/-- Parse state of an on-disk file, in the format `save_data` consumes. -/
def parseFile : Option FileRaw → Option (Option Json)
  | none => none
  | some (FileRaw.good j) => some (some j)
  | some FileRaw.garbled => some none

/-- `save_data` together with its file-system effect: returns the final
on-disk state and the exception raised, if any. The in-memory merge happens
first; only if it succeeds is the file opened for writing. -/
def save_data_fs (file : Option FileRaw) (data : Json) (w : WriteOutcome) :
    Option FileRaw × Option PyError :=
  match save_data (parseFile file) data with
  | Except.error e => (file, some e)
  | Except.ok merged =>
    match w with
    | WriteOutcome.failOpen => (file, some PyError.ioError)
    | WriteOutcome.failPartial => (some FileRaw.garbled, some PyError.ioError)
    | WriteOutcome.success => (some (FileRaw.good merged), none)

/-- Strips leading and trailing whitespace from a character list, as Python
`str.strip()` does. -/
def pyStripChars (cs : List Char) : List Char :=
  ((cs.dropWhile Char.isWhitespace).reverse.dropWhile Char.isWhitespace).reverse

/-- Python `str.strip()`. -/
def pyStrip (s : String) : String :=
  String.mk (pyStripChars s.data)

/-- Accumulator for Python `str.split()` with no argument: splits on runs of
whitespace and produces no empty pieces. -/
def splitWsAux : List Char → List Char → List String
  | [], acc => if acc = [] then [] else [String.mk acc.reverse]
  | c :: rest, acc =>
    if c.isWhitespace then
      if acc = [] then splitWsAux rest []
      else String.mk acc.reverse :: splitWsAux rest []
    else splitWsAux rest (c :: acc)

/-- Python `str.split()` with no argument. -/
def pySplit (s : String) : List String :=
  splitWsAux s.data []

/-- `s.split()[0]`: the first whitespace-separated token, or `none` when the
subscript would raise `IndexError` (empty or all-whitespace string). -/
def pySplitFirst (s : String) : Option String :=
  (pySplit s).head?

/-- Numeric value of a run of decimal digit characters. -/
def digitsToNat (cs : List Char) : Nat :=
  cs.foldl (fun a c => 10 * a + (c.toNat - 48)) 0

/-- Core of Python `int()` on an already-stripped character list: an optional
sign followed by at least one decimal digit (digit-group underscores are not
modelled); anything else raises `ValueError`, signalled by `none`. -/
def pyIntCore : List Char → Option Int
  | [] => none
  | '-' :: rest =>
    if rest ≠ [] ∧ rest.all Char.isDigit then some (-(digitsToNat rest : Int)) else none
  | '+' :: rest =>
    if rest ≠ [] ∧ rest.all Char.isDigit then some (digitsToNat rest : Int) else none
  | cs =>
    if cs.all Char.isDigit then some (digitsToNat cs : Int) else none

/-- Python `int(s)`: strips surrounding whitespace, then parses a signed
decimal numeral; `none` stands for the `ValueError` raised otherwise (in
particular `int("1,234")` raises, commas are not accepted). -/
def pyInt (s : String) : Option Int :=
  pyIntCore (pyStripChars s.data)

/-- One extraction result, the record
`{"time": now, "total_jobs": n, "job_areas": {...}}`, with the `job_areas`
dict as an insertion-ordered association list. -/
structure Snapshot where
  time : String
  total_jobs : Int
  job_areas : List (String × Int)
  deriving DecidableEq

/-- Python dict item assignment on a job-areas dict. -/
def dictSet : List (String × Int) → String → Int → List (String × Int)
  | [], key, v => [(key, v)]
  | (k, w) :: rest, key, v =>
    if k = key then (k, v) :: rest else (k, w) :: dictSet rest key v

/-- Sum of the values of a job-areas dict. -/
def sumVals (d : List (String × Int)) : Int :=
  (d.map Prod.snd).sum

/-- One `label` element returned by `soup.find_all` in
`anthropic_data_extractor` (src/AI_JobScraper.py lines 99 to 108): the text of
its `h4` title child and of its `span` count child, where `none` means the
corresponding `find` call returned no element. -/
structure AreaEntry where
  title : Option String
  count : Option String
  deriving DecidableEq

/-- The loop body of `anthropic_data_extractor` (src/AI_JobScraper.py lines
101 to 108): entries missing the title or the count element are skipped;
for the others `area = title.strip()` and
`num_jobs = int(count.split()[0])` run, where the subscript raises
`IndexError` on an empty token list and `int` raises `ValueError` on a
non-numeral token, neither being caught inside the extractor. -/
def anthropicGo (now : String) :
    List AreaEntry → List (String × Int) → Int → Except PyError Snapshot
  | [], areas, total => Except.ok ⟨now, total, areas⟩
  | e :: rest, areas, total =>
    match e.title, e.count with
    | some t, some c =>
      match pySplitFirst c with
      | none => Except.error PyError.indexError
      | some tok =>
        match pyInt tok with
        | none => Except.error PyError.valueError
        | some n => anthropicGo now rest (dictSet areas (pyStrip t) n) (total + n)
    | _, _ => anthropicGo now rest areas total

/-- `anthropic_data_extractor` from src/AI_JobScraper.py lines 86 to 109,
over the list of label elements found on the page and the formatted capture
time `now`. -/
def anthropic_data_extractor (now : String) (entries : List AreaEntry) :
    Except PyError Snapshot :=
  anthropicGo now entries [] 0

/-- Whether both sub-elements of an area entry are present (the `if
area_title_element and open_roles_element` test). -/
def entryComplete (e : AreaEntry) : Bool :=
  e.title.isSome && e.count.isSome

/-- The integer the entry's count text would convert to, when it converts. -/
def entryCountVal (e : AreaEntry) : Option Int :=
  match e.count with
  | some c =>
    match pySplitFirst c with
    | some tok => pyInt tok
    | none => none
  | none => none

/-- The area label the entry would contribute, when its title is present. -/
def entryLabel (e : AreaEntry) : Option String :=
  e.title.map pyStrip

/-- The labels of the complete entries of a page fragment, in order. -/
def completeLabels (l : List AreaEntry) : List String :=
  (l.filter entryComplete).filterMap entryLabel

/-- One numbered section `div` of the xAI page, as seen by the XPath queries
of `xai_data_extractor` (src/AI_JobScraper.py lines 152 to 161): the text of
its `h2` title element and the number of `li` items of its `ul` job list,
where `none` means the corresponding `find_element` call raises
`NoSuchElementException`. -/
structure XaiSection where
  title : Option String
  jobs : Option Nat
  deriving DecidableEq

/-- Whether both queried elements of a section are present. -/
def secComplete (s : XaiSection) : Bool :=
  s.title.isSome && s.jobs.isSome

/-- The stripped titles of the complete sections, in order. -/
def xaiLabels (secs : List XaiSection) : List String :=
  (secs.filter secComplete).filterMap (fun s => s.title.map pyStrip)

/-- The loop of `xai_data_extractor` (src/AI_JobScraper.py lines 152 to 163):
`for i in range(2, 10)` visits at most 8 numbered sections (the fuel
argument), and the bare `except: break` turns the first failing
`find_element` call into a clean stop that keeps what was accumulated. -/
def xaiGo (now : String) : Nat → List XaiSection → List (String × Int) → Int → Snapshot
  | 0, _, areas, total => ⟨now, total, areas⟩
  | _ + 1, [], areas, total => ⟨now, total, areas⟩
  | fuel + 1, s :: rest, areas, total =>
    match s.title, s.jobs with
    | some t, some n =>
      xaiGo now fuel rest (dictSet areas (pyStrip t) (Int.ofNat n)) (total + Int.ofNat n)
    | _, _ => ⟨now, total, areas⟩

/-- `xai_data_extractor` from src/AI_JobScraper.py lines 137 to 164, over the
list of numbered section `div`s present on the page (section `i` of the XPath
exists exactly when `i - 2` is below the list length). -/
def xai_data_extractor (now : String) (secs : List XaiSection) : Snapshot :=
  xaiGo now 8 secs [] 0

/-- Microseconds per hour; wall-clock instants are modelled as microseconds
elapsed since a local midnight, so the clock's minute, second and microsecond
components are exactly the remainder modulo one hour. -/
def microsPerHour : Nat := 3600000000

/-- `datetime.replace(minute=0, second=0, microsecond=0)`: zeroes everything
below the hour, which on the absolute time line floors to the enclosing hour
boundary. -/
def floorToHour (t : Nat) : Nat :=
  t - t % microsPerHour

/-- The scheduler's wake-time computation, src/AI_JobScraper.py lines 201 to
202 and src/test.py lines 190 to 193:
`(current_time + timedelta(hours=1)).replace(minute=0, second=0,
microsecond=0)`. -/
def nextHourWake (t : Nat) : Nat :=
  floorToHour (t + microsPerHour)

/-- Python exceptions split by what `except Exception` catches: ordinary
errors (`Exception` subclasses, `exc`) are caught; `KeyboardInterrupt` is a
`BaseException` outside that clause and propagates. -/
inductive PyExc where
  | exc (e : PyError)
  | kbInt
  deriving DecidableEq

/-- The three chained steps of one attempt of `scrape_company`
(src/test.py lines 151 to 168): the `requests.get` plus `raise_for_status`
fetch producing the response text, the extractor dispatch producing the data
record, and the `save_data` persist. Each is modelled by its outcome. -/
structure AttemptSteps where
  fetch : Except PyExc String
  extract : String → Except PyExc Json
  persist : Json → Except PyExc Unit

/-- The body of the `try` block of one attempt: fetch, then extract, then
persist, each step's failure short-circuiting the rest. -/
def tryAttempt (s : AttemptSteps) : Except PyExc Unit :=
  match s.fetch with
  | Except.error e => Except.error e
  | Except.ok txt =>
    match s.extract txt with
    | Except.error e => Except.error e
    | Except.ok data =>
      match s.persist data with
      | Except.error e => Except.error e
      | Except.ok _ => Except.ok ()

/-- Observable outcome of one `scrape_company` call: the returned boolean,
how many attempts ran, and the `time.sleep(0.5 * (attempt + 1))` backoff
delays in milliseconds, in order. -/
structure CycleResult where
  ok : Bool
  attempts : Nat
  sleepsMs : List Nat
  deriving DecidableEq

/-- The `for attempt in range(3)` retry loop of `scrape_company`
(src/test.py lines 149 to 176), at the loop counter `a` with the remaining
iteration count as fuel (the top-level call supplies 3). A successful attempt
returns `True` at once; a caught `Exception` at `attempt == 2` returns
`False`; a caught `Exception` earlier sleeps `0.5 * (attempt + 1)` seconds
and retries; a `KeyboardInterrupt` is not caught by `except Exception` and
propagates. -/
def scrapeGoE (steps : Nat → AttemptSteps) (a : Nat) : Nat → Except PyExc CycleResult
  | 0 => Except.ok ⟨false, a, []⟩
  | fuel + 1 =>
    match tryAttempt (steps a) with
    | Except.ok _ => Except.ok ⟨true, a + 1, []⟩
    | Except.error PyExc.kbInt => Except.error PyExc.kbInt
    | Except.error (PyExc.exc _) =>
      if a = 2 then Except.ok ⟨false, 3, []⟩
      else
        match scrapeGoE steps (a + 1) fuel with
        | Except.error ex => Except.error ex
        | Except.ok r => Except.ok ⟨r.ok, r.attempts, 500 * (a + 1) :: r.sleepsMs⟩

/-- `scrape_company` from src/test.py lines 144 to 176, given the outcome of
each step of each attempt. -/
def scrape_company (steps : Nat → AttemptSteps) : Except PyExc CycleResult :=
  scrapeGoE steps 0 3

/-- The per-tick source iteration of `main_loop` (src/test.py lines 186 to
187): `for company in COMPANY_CONFIGS: scrape_company(company)`. An exception
escaping one call would abort the loop and skip the remaining sources, which
the early-exit sequencing models. -/
def runTickE : List (Nat → AttemptSteps) → Except PyExc (List CycleResult)
  | [] => Except.ok []
  | c :: rest =>
    match scrape_company c with
    | Except.error ex => Except.error ex
    | Except.ok r =>
      match runTickE rest with
      | Except.error ex => Except.error ex
      | Except.ok rs => Except.ok (r :: rs)

/-- Attempt steps whose fetch always fails with a connection error. -/
def stepsAllFail : Nat → AttemptSteps := fun _ =>
  ⟨Except.error (PyExc.exc PyError.ioError),
   fun _ => Except.ok Json.null,
   fun _ => Except.ok ()⟩

/-- Attempt steps whose three steps all succeed. -/
def stepsAllOk : Nat → AttemptSteps := fun _ =>
  ⟨Except.ok "page",
   fun _ => Except.ok Json.null,
   fun _ => Except.ok ()⟩

/-- Assigning a fresh key appends the binding at the end of the dict. -/
theorem dictSet_fresh (d : List (String × Int)) (key : String) (v : Int)
    (h : key ∉ d.map Prod.fst) : dictSet d key v = d ++ [(key, v)] := by
  induction d with
  | nil => rfl
  | cons p rest ih =>
    obtain ⟨k, w⟩ := p
    simp only [List.map_cons, List.mem_cons] at h
    push_neg at h
    obtain ⟨h1, h2⟩ := h
    have hne : ¬k = key := fun hh => h1 hh.symm
    simp [dictSet, hne, ih h2]

/-- Appending a binding adds its value to the dict's value sum. -/
theorem sumVals_append (d : List (String × Int)) (key : String) (v : Int) :
    sumVals (d ++ [(key, v)]) = sumVals d + v := by
  simp [sumVals]

/-- A complete entry contributes its stripped title to the label list. -/
theorem completeLabels_cons_complete (e : AreaEntry) (rest : List AreaEntry) (t : String)
    (ht : e.title = some t) (hc : entryComplete e = true) :
    completeLabels (e :: rest) = pyStrip t :: completeLabels rest := by
  simp [completeLabels, List.filter_cons, hc, entryLabel, ht]

/-- An incomplete entry contributes nothing to the label list. -/
theorem completeLabels_cons_incomplete (e : AreaEntry) (rest : List AreaEntry)
    (hc : entryComplete e = false) :
    completeLabels (e :: rest) = completeLabels rest := by
  simp [completeLabels, List.filter_cons, hc]

/-- An incomplete entry anywhere in the list is skipped by the anthropic
extraction loop: the run is the same as without it. -/
theorem anthropicGo_skip (now : String) (e : AreaEntry) (l₂ : List AreaEntry)
    (hinc : entryComplete e = false) :
    ∀ l₁ areas total,
      anthropicGo now (l₁ ++ e :: l₂) areas total =
        anthropicGo now (l₁ ++ l₂) areas total := by
  intro l₁
  induction l₁ with
  | nil =>
    intro areas total
    cases ht : e.title <;> cases hc : e.count <;>
      simp_all [anthropicGo, entryComplete]
  | cons x rest ih =>
    intro areas total
    simp only [List.cons_append]
    cases ht : x.title with
    | none =>
      simp only [anthropicGo, ht]
      exact ih _ _
    | some t =>
      cases hc : x.count with
      | none =>
        simp only [anthropicGo, ht, hc]
        exact ih _ _
      | some c =>
        cases htok : pySplitFirst c with
        | none => simp [anthropicGo, ht, hc, htok]
        | some tok =>
          cases hn : pyInt tok with
          | none => simp [anthropicGo, ht, hc, htok, hn]
          | some n =>
            simp only [anthropicGo, ht, hc, htok, hn]
            exact ih _ _

/-- When every entry is complete with a parseable count and the labels are
fresh for the accumulator and pairwise distinct, the anthropic extraction
loop succeeds and adds exactly one dict binding per entry. -/
theorem anthropicGo_ok_of_complete (now : String) (l : List AreaEntry) :
    ∀ areas total,
      (∀ e ∈ l, entryComplete e = true ∧ (entryCountVal e).isSome = true) →
      (∀ lab ∈ completeLabels l, lab ∉ areas.map Prod.fst) →
      (completeLabels l).Nodup →
      ∃ snap, anthropicGo now l areas total = Except.ok snap ∧
        snap.job_areas.length = areas.length + l.length := by
  induction l with
  | nil =>
    intro areas total _ _ _
    exact ⟨⟨now, total, areas⟩, rfl, by simp⟩
  | cons e rest ih =>
    intro areas total hall hfresh hnodup
    obtain ⟨hc, hv⟩ := hall e (List.mem_cons_self e rest)
    have hc' := hc
    simp only [entryComplete, Bool.and_eq_true, Option.isSome_iff_exists] at hc'
    obtain ⟨⟨t, ht⟩, ⟨c, hcnt⟩⟩ := hc'
    cases htok : pySplitFirst c with
    | none => exact absurd hv (by simp [entryCountVal, hcnt, htok])
    | some tok =>
      cases hn : pyInt tok with
      | none => exact absurd hv (by simp [entryCountVal, hcnt, htok, hn])
      | some n =>
        rw [completeLabels_cons_complete e rest t ht hc] at hfresh hnodup
        rw [List.nodup_cons] at hnodup
        obtain ⟨hhead, htail⟩ := hnodup
        have hf : pyStrip t ∉ areas.map Prod.fst := hfresh _ (List.mem_cons_self _ _)
        have hset := dictSet_fresh areas (pyStrip t) n hf
        have hfresh' : ∀ lab ∈ completeLabels rest,
            lab ∉ (dictSet areas (pyStrip t) n).map Prod.fst := by
          intro lab hm
          rw [hset]
          simp only [List.map_append, List.mem_append, List.map_cons, List.map_nil,
            List.mem_singleton]
          push_neg
          exact ⟨hfresh lab (List.mem_cons_of_mem _ hm), fun heq => hhead (heq ▸ hm)⟩
        obtain ⟨snap, hs1, hs2⟩ := ih (dictSet areas (pyStrip t) n) (total + n)
          (fun x hx => hall x (List.mem_cons_of_mem _ hx)) hfresh' htail
        refine ⟨snap, ?_, ?_⟩
        · simp only [anthropicGo, ht, hcnt, htok, hn]
          exact hs1
        · rw [hs2, hset]
          simp only [List.length_append, List.length_cons, List.length_nil]
          omega

/-- When the labels processed by the anthropic extraction loop are fresh for
the accumulator and pairwise distinct, a successful run preserves the
invariant that the running total equals the sum of the dict values. -/
theorem anthropicGo_sum (now : String) (l : List AreaEntry) :
    ∀ areas total snap,
      (∀ lab ∈ completeLabels l, lab ∉ areas.map Prod.fst) →
      (completeLabels l).Nodup →
      total = sumVals areas →
      anthropicGo now l areas total = Except.ok snap →
      snap.total_jobs = sumVals snap.job_areas := by
  induction l with
  | nil =>
    intro areas total snap _ _ htot heq
    simp only [anthropicGo, Except.ok.injEq] at heq
    subst heq
    simpa using htot
  | cons e rest ih =>
    intro areas total snap hfresh hnodup htot heq
    cases ht : e.title with
    | none =>
      rw [completeLabels_cons_incomplete e rest (by simp [entryComplete, ht])]
        at hfresh hnodup
      simp only [anthropicGo, ht] at heq
      exact ih areas total snap hfresh hnodup htot heq
    | some t =>
      cases hcnt : e.count with
      | none =>
        rw [completeLabels_cons_incomplete e rest (by simp [entryComplete, hcnt])]
          at hfresh hnodup
        simp only [anthropicGo, ht, hcnt] at heq
        exact ih areas total snap hfresh hnodup htot heq
      | some c =>
        have hc : entryComplete e = true := by simp [entryComplete, ht, hcnt]
        cases htok : pySplitFirst c with
        | none => simp [anthropicGo, ht, hcnt, htok] at heq
        | some tok =>
          cases hn : pyInt tok with
          | none => simp [anthropicGo, ht, hcnt, htok, hn] at heq
          | some n =>
            rw [completeLabels_cons_complete e rest t ht hc] at hfresh hnodup
            rw [List.nodup_cons] at hnodup
            obtain ⟨hhead, htail⟩ := hnodup
            have hf : pyStrip t ∉ areas.map Prod.fst := hfresh _ (List.mem_cons_self _ _)
            have hset := dictSet_fresh areas (pyStrip t) n hf
            have hfresh' : ∀ lab ∈ completeLabels rest,
                lab ∉ (dictSet areas (pyStrip t) n).map Prod.fst := by
              intro lab hm
              rw [hset]
              simp only [List.map_append, List.mem_append, List.map_cons, List.map_nil,
                List.mem_singleton]
              push_neg
              exact ⟨hfresh lab (List.mem_cons_of_mem _ hm), fun heq2 => hhead (heq2 ▸ hm)⟩
            simp only [anthropicGo, ht, hcnt, htok, hn] at heq
            refine ih (dictSet areas (pyStrip t) n) (total + n) snap hfresh' htail ?_ heq
            rw [hset, sumVals_append, htot]

/-- An incomplete section after a run of complete ones makes the xAI loop
stop there: the run is the same as on the complete sections alone. -/
theorem xaiGo_stop (now : String) (e : XaiSection) (l₂ : List XaiSection)
    (hinc : secComplete e = false) :
    ∀ l₁ fuel areas total,
      (∀ s ∈ l₁, secComplete s = true) →
      xaiGo now fuel (l₁ ++ e :: l₂) areas total = xaiGo now fuel l₁ areas total := by
  intro l₁
  induction l₁ with
  | nil =>
    intro fuel areas total _
    cases fuel with
    | zero => rfl
    | succ f =>
      cases ht : e.title <;> cases hj : e.jobs <;>
        simp_all [xaiGo, secComplete]
  | cons x rest ih =>
    intro fuel areas total hall
    cases fuel with
    | zero => rfl
    | succ f =>
      have hx := hall x (List.mem_cons_self x rest)
      simp only [secComplete, Bool.and_eq_true, Option.isSome_iff_exists] at hx
      obtain ⟨⟨t, ht⟩, ⟨n, hj⟩⟩ := hx
      simp only [List.cons_append, xaiGo, ht, hj]
      exact ih f _ _ (fun s hs => hall s (List.mem_cons_of_mem _ hs))

/-- A complete section contributes its stripped title to the xAI label
list. -/
theorem xaiLabels_cons_complete (s : XaiSection) (rest : List XaiSection) (t : String)
    (ht : s.title = some t) (hc : secComplete s = true) :
    xaiLabels (s :: rest) = pyStrip t :: xaiLabels rest := by
  simp [xaiLabels, List.filter_cons, hc, ht]

/-- When the section titles are fresh for the accumulator and pairwise
distinct, the xAI extraction loop keeps the running total equal to the sum
of the dict values. -/
theorem xaiGo_sum (now : String) (secs : List XaiSection) :
    ∀ fuel areas total,
      (∀ lab ∈ xaiLabels secs, lab ∉ areas.map Prod.fst) →
      (xaiLabels secs).Nodup →
      total = sumVals areas →
      (xaiGo now fuel secs areas total).total_jobs =
        sumVals (xaiGo now fuel secs areas total).job_areas := by
  induction secs with
  | nil =>
    intro fuel areas total _ _ htot
    cases fuel <;> simpa [xaiGo] using htot
  | cons s rest ih =>
    intro fuel areas total hfresh hnodup htot
    cases fuel with
    | zero => simpa [xaiGo] using htot
    | succ f =>
      cases ht : s.title with
      | none => simpa [xaiGo, ht] using htot
      | some t =>
        cases hj : s.jobs with
        | none => simpa [xaiGo, ht, hj] using htot
        | some n =>
          have hc : secComplete s = true := by simp [secComplete, ht, hj]
          rw [xaiLabels_cons_complete s rest t ht hc] at hfresh hnodup
          rw [List.nodup_cons] at hnodup
          obtain ⟨hhead, htail⟩ := hnodup
          have hf : pyStrip t ∉ areas.map Prod.fst := hfresh _ (List.mem_cons_self _ _)
          have hset := dictSet_fresh areas (pyStrip t) (Int.ofNat n) hf
          have hfresh' : ∀ lab ∈ xaiLabels rest,
              lab ∉ (dictSet areas (pyStrip t) (Int.ofNat n)).map Prod.fst := by
            intro lab hm
            rw [hset]
            simp only [List.map_append, List.mem_append, List.map_cons, List.map_nil,
              List.mem_singleton]
            push_neg
            exact ⟨hfresh lab (List.mem_cons_of_mem _ hm), fun heq => hhead (heq ▸ hm)⟩
          simp only [xaiGo, ht, hj]
          refine ih f (dictSet areas (pyStrip t) (Int.ofNat n)) (total + Int.ofNat n)
            hfresh' htail ?_
          rw [hset, sumVals_append, htot]

/-- Looking up the key just assigned returns the assigned value. -/
theorem jlookup_jset (kvs : List (String × Json)) (key : String) (v : Json) :
    jlookup (jset kvs key v) key = some v := by
  induction kvs with
  | nil => simp [jset, jlookup]
  | cons p rest ih =>
    obtain ⟨k, w⟩ := p
    by_cases h : k = key
    · simp [jset, jlookup, h]
    · simp [jset, jlookup, h, ih]

/-- C1: appending a snapshot to a well-formed Dataset File value (a record
with a `"data"` list `l`) succeeds and leaves the snapshot list equal to
`l ++ [s]` — earlier entries unaltered, in order, the new one last. -/
theorem C1_save_data_appends (D : Json) (l : List Json) (s : Json)
    (h : dataList D = some l) :
    ∃ r, save_data (some (some D)) s = Except.ok r ∧ dataList r = some (l ++ [s]) := by
  cases D with
  | obj kvs =>
    cases hl : jlookup kvs "data" with
    | none => simp [dataList, hl] at h
    | some j =>
      cases j with
      | arr xs =>
        have hx : xs = l := by simpa [dataList, hl] using h
        subst hx
        refine ⟨Json.obj (jset kvs "data" (Json.arr (xs ++ [s]))), ?_, ?_⟩
        · simp [save_data, hl]
        · simp [dataList, jlookup_jset]
      | null => simp [dataList, hl] at h
      | bool b => simp [dataList, hl] at h
      | num n => simp [dataList, hl] at h
      | str t => simp [dataList, hl] at h
      | obj kvs2 => simp [dataList, hl] at h
  | null => simp [dataList] at h
  | bool b => simp [dataList] at h
  | num n => simp [dataList] at h
  | str t => simp [dataList] at h
  | arr xs => simp [dataList] at h

/-- C1 witness: a file holding one snapshot gains the new one at the end. -/
theorem C1_witness :
    dataList (Json.obj [("data", Json.arr [Json.str "old"])]) = some [Json.str "old"] ∧
      Except.map dataList
          (save_data (some (some (Json.obj [("data", Json.arr [Json.str "old"])])))
            (Json.str "new")) =
        Except.ok (some [Json.str "old", Json.str "new"]) := by
  refine ⟨rfl, ?_⟩
  obtain ⟨r, h1, h2⟩ :=
    C1_save_data_appends (Json.obj [("data", Json.arr [Json.str "old"])])
      [Json.str "old"] (Json.str "new") rfl
  rw [h1]
  simp [Except.map, h2]

/-- C2 counterexample: a file whose content is `{}` — valid JSON that is not
the Dataset File structure — makes `save_data` raise `KeyError` rather than
treat the prior content as empty. -/
theorem C2_counterexample :
    save_data (some (some (Json.obj []))) (Json.str "snap") =
      Except.error PyError.keyError := rfl

/-- C2 (amended): only a file whose content fails to parse as JSON text
(`json.JSONDecodeError`) is recovered from: there `save_data` does not raise
and produces a file containing exactly one snapshot, the new one. Content
that parses as JSON but lacks the Dataset File structure raises instead. -/
theorem C2_decode_error_recovery (s : Json) :
    save_data (some none) s = Except.ok (Json.obj [("data", Json.arr [s])]) ∧
      dataList (Json.obj [("data", Json.arr [s])]) = some [s] :=
  ⟨rfl, rfl⟩

/-- C4 counterexample: with one snapshot on disk, a write failure during the
dump itself (disk full) leaves the file truncated and unparseable — the
previously persisted snapshot is not intact — because `open(filename, "w")`
truncates before `json.dump` writes. -/
theorem C4_counterexample :
    save_data_fs (some (FileRaw.good (Json.obj [("data", Json.arr [Json.str "old"])])))
        (Json.str "snap2") WriteOutcome.failPartial =
      (some FileRaw.garbled, some PyError.ioError) ∧
      parseFile
        (save_data_fs (some (FileRaw.good (Json.obj [("data", Json.arr [Json.str "old"])])))
          (Json.str "snap2") WriteOutcome.failPartial).1 = some none :=
  ⟨rfl, rfl⟩

/-- C4 (amended): the in-memory merge happens before any write, so a persist
failure at file-open time (e.g. permissions) leaves the existing on-disk
content untouched; but the write is not atomic — it truncates before dumping
— so a failure during the dump (e.g. disk full) can corrupt the file. -/
theorem C4_open_failure_preserves (file : Option FileRaw) (s : Json) :
    (save_data_fs file s WriteOutcome.failOpen).1 = file := by
  unfold save_data_fs
  cases save_data (parseFile file) s <;> rfl

/-- C7: the computed wake time is the hour boundary with absolute hour index
one past the completion time's — a multiple of one hour, strictly after `t`,
and no later than any hour boundary strictly after `t`. -/
theorem C7_schedule_alignment (t : Nat) :
    nextHourWake t = microsPerHour * (t / microsPerHour + 1) ∧
      t < nextHourWake t ∧
      ∀ b, b % microsPerHour = 0 → t < b → nextHourWake t ≤ b := by
  refine ⟨?_, ?_, ?_⟩
  · simp only [nextHourWake, floorToHour, microsPerHour]
    omega
  · simp only [nextHourWake, floorToHour, microsPerHour]
    omega
  · intro b hb hlt
    simp only [microsPerHour] at hb
    simp only [nextHourWake, floorToHour, microsPerHour]
    omega

/-- C7 witness: a cycle completing at 14:37:12 (52632000000 microseconds
after midnight) wakes at exactly 15:00:00 the same day (54000000000
microseconds), not one hour after completion. -/
theorem C7_witness :
    nextHourWake 52632000000 = 54000000000 ∧
      52632000000 < nextHourWake 52632000000 ∧
      nextHourWake 52632000000 ≤ 54000000000 := by
  obtain ⟨h1, h2, h3⟩ := C7_schedule_alignment 52632000000
  refine ⟨?_, h2, h3 54000000000 (by decide) (by decide)⟩
  rw [h1]
  rfl

/-- C3 counterexample: an area entry whose count text is "1,234 open roles"
does not extract to 1234 and is not skipped: `int("1,234")` raises
`ValueError`, which the extractor does not catch, so the whole extraction
fails. -/
theorem C3_counterexample :
    anthropic_data_extractor "t" [⟨some "Eng", some "1,234 open roles"⟩] =
      Except.error PyError.valueError := rfl

/-- C3 (amended): numeric parsing strips only trailing whitespace-separated
decoration — the count is `int` of the first whitespace token, so `"42"`
extracts to 42 and words after the number are dropped — but a first token
that is not a plain signed numeral (commas included, so `"1,234 open roles"`)
raises `ValueError` and fails the whole extraction instead of skipping the
entry. -/
theorem C3_numeric_parsing :
    (∀ now t c tok n, pySplitFirst c = some tok → pyInt tok = some n →
      anthropic_data_extractor now [⟨some t, some c⟩] =
        Except.ok ⟨now, n, [(pyStrip t, n)]⟩) ∧
    (∀ now t c tok, pySplitFirst c = some tok → pyInt tok = none →
      anthropic_data_extractor now [⟨some t, some c⟩] =
        Except.error PyError.valueError) := by
  constructor
  · intro now t c tok n htok hn
    simp [anthropic_data_extractor, anthropicGo, htok, hn, dictSet]
  · intro now t c tok htok hn
    simp [anthropic_data_extractor, anthropicGo, htok, hn]

/-- C3 witness: the count "42" extracts to the integer 42, and a non-numeric
count fails the extraction with `ValueError`. -/
theorem C3_witness :
    anthropic_data_extractor "t" [⟨some "Eng", some "42"⟩] =
        Except.ok ⟨"t", 42, [("Eng", 42)]⟩ ∧
      anthropic_data_extractor "t" [⟨some "Sales", some "TBD roles"⟩] =
        Except.error PyError.valueError := by
  constructor
  · exact C3_numeric_parsing.1 "t" "Eng" "42" "42" 42 (by decide) (by decide)
  · exact C3_numeric_parsing.2 "t" "Sales" "TBD roles" "TBD" (by decide) (by decide)

/-- C8: the positional traversal of `xai_data_extractor` stops cleanly at the
first absent section — after any run of complete sections, an incomplete one
makes the extractor return exactly what it returns on the complete run alone,
with no failure reported. -/
theorem C8_positional_stop (now : String) (l₁ : List XaiSection) (e : XaiSection)
    (l₂ : List XaiSection) (h1 : ∀ s ∈ l₁, secComplete s = true)
    (h2 : secComplete e = false) :
    xai_data_extractor now (l₁ ++ e :: l₂) = xai_data_extractor now l₁ := by
  simp only [xai_data_extractor]
  exact xaiGo_stop now e l₂ h2 l₁ 8 [] 0 h1

/-- C8 witness: with one complete section, one with a missing title, and one
complete section after it, extraction returns the first section's areas
only. -/
theorem C8_witness :
    xai_data_extractor "t"
        [⟨some "Eng", some 3⟩, ⟨none, some 1⟩, ⟨some "Sales", some 2⟩] =
      xai_data_extractor "t" [⟨some "Eng", some 3⟩] :=
  C8_positional_stop "t" [⟨some "Eng", some 3⟩] ⟨none, some 1⟩
    [⟨some "Sales", some 2⟩] (by decide) (by decide)

/-- C9 counterexample: a fragment of N = 2 entries of which exactly one is
missing its count sub-element does not extract to an N − 1 entry snapshot:
the other entry's count text "x" makes `int` raise `ValueError`, so the
extraction fails. -/
theorem C9_counterexample :
    anthropic_data_extractor "t" [⟨some "A", some "x"⟩, ⟨some "B", none⟩] =
      Except.error PyError.valueError := rfl

/-- C9 (amended): for a page fragment whose entries are complete with
parseable counts and pairwise-distinct stripped labels except for exactly one
entry missing its count or label sub-element, extraction succeeds, skips the
incomplete entry, and returns a snapshot with exactly N − 1 area entries. -/
theorem C9_extraction_tolerance (now : String) (l₁ : List AreaEntry) (e : AreaEntry)
    (l₂ : List AreaEntry)
    (hall : ∀ x ∈ l₁ ++ l₂, entryComplete x = true ∧ (entryCountVal x).isSome = true)
    (hinc : entryComplete e = false)
    (hnodup : (completeLabels (l₁ ++ l₂)).Nodup) :
    ∃ snap, anthropic_data_extractor now (l₁ ++ e :: l₂) = Except.ok snap ∧
      snap.job_areas.length = l₁.length + l₂.length := by
  simp only [anthropic_data_extractor]
  rw [anthropicGo_skip now e l₂ hinc l₁ [] 0]
  obtain ⟨snap, hs1, hs2⟩ :=
    anthropicGo_ok_of_complete now (l₁ ++ l₂) [] 0 hall (by simp) hnodup
  exact ⟨snap, hs1, by simpa using hs2⟩

/-- C9 witness: of three entries, the middle one lacking its count element is
skipped and the snapshot has exactly two area entries. -/
theorem C9_witness :
    Except.map (fun s => s.job_areas.length)
        (anthropic_data_extractor "t"
          [⟨some "A", some "1"⟩, ⟨some "B", none⟩, ⟨some "C", some "2"⟩]) =
      Except.ok 2 := by
  obtain ⟨snap, h1, h2⟩ :=
    C9_extraction_tolerance "t" [⟨some "A", some "1"⟩] ⟨some "B", none⟩
      [⟨some "C", some "2"⟩] (by decide) (by decide) (by decide)
  simp only [List.cons_append, List.nil_append] at h1
  rw [h1]
  simp [Except.map, h2]

/-- C10 counterexample: two entries sharing the label "A" make the anthropic
extractor return total_jobs 3 while the job_areas mapping sums to 2 — the
dict assignment overwrites the earlier count but the total keeps
accumulating, so the sum-equals-total relation fails. -/
theorem C10_counterexample :
    anthropic_data_extractor "t" [⟨some "A", some "1"⟩, ⟨some "A", some "2"⟩] =
      Except.ok ⟨"t", 3, [("A", 2)]⟩ ∧
      sumVals [("A", (2 : Int))] ≠ (3 : Int) := by
  exact ⟨rfl, by decide⟩

/-- C10 (amended): whenever the area labels a run processes are pairwise
distinct, both the anthropic and the xAI extractors return a snapshot whose
total_jobs equals the sum of the job_areas values, since both accumulate the
total from the per-area counts. -/
theorem C10_total_eq_sum :
    (∀ now entries snap, (completeLabels entries).Nodup →
      anthropic_data_extractor now entries = Except.ok snap →
      snap.total_jobs = sumVals snap.job_areas) ∧
    (∀ now secs, (xaiLabels secs).Nodup →
      (xai_data_extractor now secs).total_jobs =
        sumVals (xai_data_extractor now secs).job_areas) := by
  constructor
  · intro now entries snap hnodup heq
    exact anthropicGo_sum now entries [] 0 snap (by simp) hnodup (by simp [sumVals]) heq
  · intro now secs hnodup
    exact xaiGo_sum now secs 8 [] 0 (by simp) hnodup (by simp [sumVals])

/-- A failing fetch fails the whole attempt with the same exception. -/
theorem tryAttempt_fetch_error (s : AttemptSteps) (ex : PyExc)
    (h : s.fetch = Except.error ex) : tryAttempt s = Except.error ex := by
  simp [tryAttempt, h]

/-- As long as no attempt raises a `KeyboardInterrupt`, the retry loop always
returns normally: every `Exception` is caught by its handler. -/
theorem scrapeGoE_ok_of_exc (steps : Nat → AttemptSteps)
    (h : ∀ a, tryAttempt (steps a) ≠ Except.error PyExc.kbInt) :
    ∀ fuel a, ∃ r, scrapeGoE steps a fuel = Except.ok r := by
  intro fuel
  induction fuel with
  | zero => intro a; exact ⟨⟨false, a, []⟩, rfl⟩
  | succ f ih =>
    intro a
    cases htry : tryAttempt (steps a) with
    | ok u =>
      refine ⟨⟨true, a + 1, []⟩, ?_⟩
      simp [scrapeGoE, htry]
    | error ex =>
      cases ex with
      | kbInt => exact absurd htry (h a)
      | exc e =>
        by_cases ha : a = 2
        · subst ha
          refine ⟨⟨false, 3, []⟩, ?_⟩
          simp [scrapeGoE, htry]
        · obtain ⟨r, hr⟩ := ih (a + 1)
          refine ⟨⟨r.ok, r.attempts, 500 * (a + 1) :: r.sleepsMs⟩, ?_⟩
          simp [scrapeGoE, htry, ha, hr]

/-- C5: a source whose fetch always fails with an ordinary error is attempted
exactly 3 times, with backoff sleeps of 500 ms then 1000 ms
(`0.5 * (attempt + 1)` seconds after failed attempts 1 and 2), and the cycle
returns `False` without raising; and a first successful attempt `j` ends the
cycle immediately with `j + 1` attempts and only the sleeps already taken. -/
theorem C5_retry_bound :
    (∀ steps : Nat → AttemptSteps,
      (∀ a, ∃ e, (steps a).fetch = Except.error (PyExc.exc e)) →
      scrape_company steps = Except.ok ⟨false, 3, [500, 1000]⟩) ∧
    (∀ steps : Nat → AttemptSteps, ∀ j, j < 3 →
      (∀ i, i < j → ∃ e, tryAttempt (steps i) = Except.error (PyExc.exc e)) →
      tryAttempt (steps j) = Except.ok () →
      scrape_company steps =
        Except.ok ⟨true, j + 1, (List.range j).map (fun i => 500 * (i + 1))⟩) := by
  constructor
  · intro steps h
    obtain ⟨e0, h0⟩ := h 0
    obtain ⟨e1, h1⟩ := h 1
    obtain ⟨e2, h2⟩ := h 2
    have t0 := tryAttempt_fetch_error _ _ h0
    have t1 := tryAttempt_fetch_error _ _ h1
    have t2 := tryAttempt_fetch_error _ _ h2
    simp [scrape_company, scrapeGoE, t0, t1, t2]
  · intro steps j hj hfail hsucc
    interval_cases j
    · simp [scrape_company, scrapeGoE, hsucc]
    · obtain ⟨e0, t0⟩ := hfail 0 (by omega)
      simp [scrape_company, scrapeGoE, t0, hsucc, List.range_succ]
    · obtain ⟨e0, t0⟩ := hfail 0 (by omega)
      obtain ⟨e1, t1⟩ := hfail 1 (by omega)
      simp [scrape_company, scrapeGoE, t0, t1, hsucc, List.range_succ]

/-- C5 witness: an always-failing source yields 3 attempts, sleeps of 500 ms
and 1000 ms, and a normal `False` return; an immediately-succeeding source
stops after 1 attempt with no sleeps. -/
theorem C5_witness :
    scrape_company stepsAllFail = Except.ok ⟨false, 3, [500, 1000]⟩ ∧
      scrape_company stepsAllOk = Except.ok ⟨true, 1, []⟩ := by
  constructor
  · exact C5_retry_bound.1 stepsAllFail (fun a => ⟨PyError.ioError, rfl⟩)
  · exact C5_retry_bound.2 stepsAllOk 0 (by omega)
      (fun i hi => absurd hi (by omega)) rfl

/-- C6: when every error raised in any source's fetch, extract, or persist
step is an ordinary `Exception` (no `KeyboardInterrupt`), the per-source
cycle catches it and returns normally, so the per-tick iteration completes
with one outcome per configured source — no failure crashes the loop or
skips the remaining sources. -/
theorem C6_error_isolation (cfgs : List (Nat → AttemptSteps))
    (h : ∀ c ∈ cfgs, ∀ a, tryAttempt (c a) ≠ Except.error PyExc.kbInt) :
    ∃ rs, runTickE cfgs = Except.ok rs ∧ rs.length = cfgs.length := by
  induction cfgs with
  | nil => exact ⟨[], rfl, rfl⟩
  | cons c rest ih =>
    obtain ⟨r, hr⟩ := scrapeGoE_ok_of_exc c (h c (List.mem_cons_self c rest)) 3 0
    obtain ⟨rs, hrs, hlen⟩ := ih (fun d hd a => h d (List.mem_cons_of_mem _ hd) a)
    refine ⟨r :: rs, ?_, by simp [hlen]⟩
    simp [runTickE, scrape_company, hr, hrs]

/-- C6 witness: a tick over three sources — one always failing, one
succeeding, one failing — completes with all three attempted. -/
theorem C6_witness :
    Except.map List.length (runTickE [stepsAllFail, stepsAllOk, stepsAllFail]) =
      Except.ok 3 := by
  have hk : ∀ c ∈ [stepsAllFail, stepsAllOk, stepsAllFail], ∀ a,
      tryAttempt (c a) ≠ Except.error PyExc.kbInt := by
    intro c hc a
    simp only [List.mem_cons, List.not_mem_nil, or_false] at hc
    rcases hc with rfl | rfl | rfl
    · simp [stepsAllFail, tryAttempt]
    · simp [stepsAllOk, tryAttempt]
    · simp [stepsAllFail, tryAttempt]
  obtain ⟨rs, h1, h2⟩ :=
    C6_error_isolation [stepsAllFail, stepsAllOk, stepsAllFail] hk
  rw [h1]
  simp only [Except.map]
  rw [h2]
  rfl

/-- C10 witness: with distinct labels, both extractors yield snapshots whose
total equals the sum of the per-area counts. -/
theorem C10_witness :
    (Snapshot.mk "t" 3 [("A", 1), ("B", 2)]).total_jobs =
        sumVals (Snapshot.mk "t" 3 [("A", 1), ("B", 2)]).job_areas ∧
      (xai_data_extractor "t" [⟨some "A", some 2⟩, ⟨some "B", some 5⟩]).total_jobs =
        sumVals (xai_data_extractor "t" [⟨some "A", some 2⟩, ⟨some "B", some 5⟩]).job_areas := by
  constructor
  · exact C10_total_eq_sum.1 "t" [⟨some "A", some "1"⟩, ⟨some "B", some "2"⟩]
      (Snapshot.mk "t" 3 [("A", 1), ("B", 2)]) (by decide) rfl
  · exact C10_total_eq_sum.2 "t" [⟨some "A", some 2⟩, ⟨some "B", some 5⟩] (by decide)

end Scraper
